import Mathlib

/-!
Verification of the rencom-sdk-python request-execution layer.

The definitions below are a shallow embedding of the SDK source:
`rencom/_http.py` (HTTPClient), `rencom/exceptions.py`, `rencom/client.py`
(public constructors), `rencom/x402.py` (pagination and the synchronous
facade) and `rencom/ucp/{products,merchants}.py` (query construction).
Machine details that no claim touches (float formatting of the timeout in a
message string, integer parsing of well-formed header strings) are noted at
the definition they concern.
-/

namespace Rencom

/-- Truthiness of an optional string exactly as the source conditionals
(`if self.admin_key:`, `if category:`) evaluate it: an absent value and the
empty string are both false. -/
def strTruthy : Option String → Bool
  | none => false
  | some s => s != ""

/-- Truthiness of an optional list (`if capabilities:`): absent and the empty
list are both false. -/
def listTruthy {α : Type} : Option (List α) → Bool
  | none => false
  | some l => !l.isEmpty

/-- Truthiness of an optional integer (`if e.retry_after:`): absent and zero
are both false. -/
def optIntTruthy : Option Int → Bool
  | none => false
  | some n => n != 0

/-- Header maps are association lists kept in insertion order, matching dict
semantics of the source. -/
abbrev Headers := List (String × String)

/-- Dict assignment `hs[k] = v`: overwrite in place if the key exists,
otherwise append. -/
def hset (hs : Headers) (k v : String) : Headers :=
  if hs.any (fun p => p.1 == k) then
    hs.map (fun p => if p.1 == k then (k, v) else p)
  else
    hs ++ [(k, v)]

/-- Dict lookup: the value stored at `k`, if any. -/
def hget (hs : Headers) (k : String) : Option String :=
  (hs.find? (fun p => p.1 == k)).map Prod.snd

/-- Dict `hs.update(extra)`: fold the assignments of `extra` into `hs` left to
right, so a later writer wins. -/
def hupdate (hs : Headers) (extra : Headers) : Headers :=
  extra.foldl (fun acc p => hset acc p.1 p.2) hs

/-- The configuration HTTPClient.__init__ stores: the three credential slots,
the retry ceiling and the 429 auto-retry flag (base_url and timeout are
carried by the transport and touched by no claim). -/
structure HTTPConfig where
  api_key : Option String
  jwt_token : Option String
  admin_key : Option String
  max_retries : Nat
  auto_retry_rate_limits : Bool
  deriving DecidableEq

/-- HTTPClient._build_headers: start from Content-Type, add at most one auth
header chosen by priority admin_key > jwt_token > api_key (truthiness
checks), then merge the caller extras with dict update. A pure function of
its inputs, so deterministic by construction. -/
def build_headers (c : HTTPConfig) (extra_headers : Option Headers) : Headers :=
  let headers : Headers := [("Content-Type", "application/json")]
  let headers :=
    if strTruthy c.admin_key then hset headers "X-Admin-Key" (c.admin_key.getD "")
    else if strTruthy c.jwt_token then
      hset headers "Authorization" ("Bearer " ++ c.jwt_token.getD "")
    else if strTruthy c.api_key then hset headers "X-API-Key" (c.api_key.getD "")
    else headers
  match extra_headers with
  | none => headers
  | some e => if e.isEmpty then headers else hupdate headers e

/-- The three authentication header names of the wire contract. -/
def authHeaderKeys : List String := ["X-Admin-Key", "Authorization", "X-API-Key"]

/-- The authentication entries of a header map, in order. -/
def authEntries (hs : Headers) : Headers :=
  hs.filter (fun p => authHeaderKeys.contains p.1)

/-- A validation field-error record from the error body, a JSON object kept
as key/value pairs. -/
abbrev FieldErr := List (String × String)

/-- The closed error taxonomy of rencom/exceptions.py. Every constructor
carries its message; ValidationError carries its field errors,
RateLimitError its retry_after/limit/remaining/reset_at metadata. -/
inductive ErrKind where
  | validation (message : String) (errors : List FieldErr)
  | authentication (message : String)
  | authorization (message : String)
  | notFound (message : String)
  | rateLimit (message : String) (retry_after : Option Int)
      (limit remaining reset_at : Option Int)
  | serviceUnavailable (message : String)
  | server (message : String)
  | network (message : String)
  | timeout (message : String)
  | rencom (message : String)
  deriving DecidableEq

/-- Membership of the ServerError class: ServiceUnavailableError subclasses
ServerError in exceptions.py, so except clauses for ServerError catch both. -/
def ErrKind.isServerError : ErrKind → Bool
  | .server _ => true
  | .serviceUnavailable _ => true
  | _ => false

/-- An HTTP response as the executor observes it. `jsonOk` records whether
`response.json()` succeeds, `jsonIsDict` whether its result supports `.get`
(a JSON object); `detail` and `errors` are the dict lookups used by error
handling when it does. The rate-limit headers are modelled after integer
parsing: `none` is an absent (or falsy-empty) header. -/
structure HttpResponse where
  status : Nat
  jsonOk : Bool
  jsonIsDict : Bool
  detail : Option String
  errors : Option (List FieldErr)
  text : String
  retryAfter : Option Int
  limitMinute : Option Int
  remainingMinute : Option Int
  resetAt : Option Int
  deriving DecidableEq

/-- HTTPClient._handle_error_response: extract message and field errors from
the body (the except branch covers both a parse failure and a non-object
body), then map the status to the typed error it raises. -/
def handle_error_response (r : HttpResponse) : ErrKind :=
  let parsed := r.jsonOk && r.jsonIsDict
  let message :=
    if parsed then r.detail.getD r.text
    else if r.text == "" then "HTTP " ++ toString r.status
    else r.text
  let errors := if parsed then r.errors else none
  if r.status == 400 then .validation message (errors.getD [])
  else if r.status == 401 then .authentication message
  else if r.status == 403 then .authorization message
  else if r.status == 404 then .notFound message
  else if r.status == 429 then
    .rateLimit message (some (r.retryAfter.getD 60))
      r.limitMinute r.remainingMinute r.resetAt
  else if r.status == 503 then .serviceUnavailable message
  else if 500 ≤ r.status then .server message
  else .rencom ("HTTP " ++ toString r.status ++ ": " ++ message)

/-- Modelled from the spec wording of C3 for comparison with the source: the
message chain prefers a `detail` field of the JSON body, then the raw
response text, then `HTTP <status>`. -/
def specMessage (r : HttpResponse) : String :=
  match (if r.jsonOk && r.jsonIsDict then r.detail else none) with
  | some d => d
  | none => if r.text == "" then "HTTP " ++ toString r.status else r.text

/-- Modelled from the spec wording of C3 for comparison with the source: the
status table 400 Validation, 401 Authentication, 403 Authorization,
404 NotFound, 429 RateLimit with retry-after defaulting to 60, 503
ServiceUnavailable, other 5xx Server, any other failure a generic error
carrying the status. -/
def specErrorFor (r : HttpResponse) : ErrKind :=
  let m := specMessage r
  if r.status = 503 then .serviceUnavailable m
  else if 500 ≤ r.status then .server m
  else if r.status = 400 then
    .validation m (if r.jsonOk && r.jsonIsDict then r.errors.getD [] else [])
  else if r.status = 401 then .authentication m
  else if r.status = 403 then .authorization m
  else if r.status = 404 then .notFound m
  else if r.status = 429 then
    .rateLimit m (some (r.retryAfter.getD 60))
      r.limitMinute r.remainingMinute r.resetAt
  else .rencom ("HTTP " ++ toString r.status ++ ": " ++ m)

/-- What one transport attempt produces: a timeout, another network failure,
or an HTTP response. -/
inductive TransportOutcome where
  | timeoutExc
  | networkExc (msg : String)
  | response (r : HttpResponse)

/-- A wait performed between attempts: either `_wait_with_backoff(attempt)`
or a plain `asyncio.sleep(seconds)` on the retry-after value. -/
inductive Wait where
  | backoff (attempt : Nat)
  | sleep (seconds : Int)
  deriving DecidableEq

/-- Whether a wait came from the exponential backoff schedule. -/
def Wait.isBackoff : Wait → Bool
  | .backoff _ => true
  | .sleep _ => false

/-- How one logical call ends: the decoded body of a success response is
returned, a typed SDK error is raised, or the JSON decode failure of a
success-status body escapes the loop uncaught. -/
inductive ReqOutcome where
  | ok (r : HttpResponse)
  | raised (e : ErrKind)
  | decodeRaised (r : HttpResponse)
  deriving DecidableEq

/-- Whether the outcome is a raised member of the SDK error taxonomy. -/
def ReqOutcome.isTypedError : ReqOutcome → Bool
  | .raised _ => true
  | _ => false

/-- The observable run of one logical call: its outcome, how many transport
attempts it made, and the waits it performed, in order. -/
structure RunResult where
  outcome : ReqOutcome
  attempts : Nat
  waits : List Wait
  deriving DecidableEq

/-- The possible ends of the try block of one loop iteration of
HTTPClient.request, named after which except clause, if any, receives it. -/
inductive AttemptClass where
  | success (r : HttpResponse)
  | decodeFail (r : HttpResponse)
  | caughtTimeout
  | caughtNetwork (msg : String)
  | caughtHttp (e : ErrKind)

/-- Classification of the try block of one loop iteration in
HTTPClient.request: a status of at least 400 raises through
_handle_error_response, otherwise the body is JSON-decoded and returned,
with a decode failure escaping uncaught. -/
def classifyAttempt (o : TransportOutcome) : AttemptClass :=
  match o with
  | .timeoutExc => .caughtTimeout
  | .networkExc m => .caughtNetwork m
  | .response r =>
    if 400 ≤ r.status then .caughtHttp (handle_error_response r)
    else if r.jsonOk then .success r
    else .decodeFail r

/-- The retry loop of HTTPClient.request, one recursion step per iteration of
`for attempt in range(max_retries + 1)`; `fuel` is the number of iterations
the range still allows and `transport` gives each attempt its transport
outcome. Timeouts, other network failures and ServerError (with its 503
subclass) retry with a backoff wait while `attempt < max_retries`;
RateLimitError retries only when auto-retry is on, sleeping its truthy
retry_after and falling back to backoff otherwise; every other raise
propagates immediately. The fuel-exhausted base case is the defensive
post-loop raise, unreachable from a nonzero starting fuel. The timeout
message abbreviates the float-formatted message of the source. -/
def requestGo (cfg : HTTPConfig) (transport : Nat → TransportOutcome) :
    Nat → Nat → RunResult
  | _, 0 => ⟨.raised (.rencom "Request failed after all retry attempts"), 0, []⟩
  | attempt, fuel + 1 =>
    match classifyAttempt (transport attempt) with
    | .success r => ⟨.ok r, 1, []⟩
    | .decodeFail r => ⟨.decodeRaised r, 1, []⟩
    | .caughtTimeout =>
      if attempt < cfg.max_retries then
        let rest := requestGo cfg transport (attempt + 1) fuel
        ⟨rest.outcome, rest.attempts + 1, Wait.backoff attempt :: rest.waits⟩
      else ⟨.raised (.timeout "Request timeout"), 1, []⟩
    | .caughtNetwork m =>
      if attempt < cfg.max_retries then
        let rest := requestGo cfg transport (attempt + 1) fuel
        ⟨rest.outcome, rest.attempts + 1, Wait.backoff attempt :: rest.waits⟩
      else ⟨.raised (.network ("Network error: " ++ m)), 1, []⟩
    | .caughtHttp e =>
      if e.isServerError then
        if attempt < cfg.max_retries then
          let rest := requestGo cfg transport (attempt + 1) fuel
          ⟨rest.outcome, rest.attempts + 1, Wait.backoff attempt :: rest.waits⟩
        else ⟨.raised e, 1, []⟩
      else
        match e with
        | .rateLimit m ra l rem rst =>
          if cfg.auto_retry_rate_limits ∧ attempt < cfg.max_retries then
            let w := if optIntTruthy ra then Wait.sleep (ra.getD 0)
                     else Wait.backoff attempt
            let rest := requestGo cfg transport (attempt + 1) fuel
            ⟨rest.outcome, rest.attempts + 1, w :: rest.waits⟩
          else ⟨.raised (.rateLimit m ra l rem rst), 1, []⟩
        | e => ⟨.raised e, 1, []⟩

/-- HTTPClient.request: run the retry loop from attempt 0 with the
`max_retries + 1` iterations of its range. -/
def request (cfg : HTTPConfig) (transport : Nat → TransportOutcome) : RunResult :=
  requestGo cfg transport 0 (cfg.max_retries + 1)

/-- HTTPClient._wait_with_backoff, with the uniform jitter sample of
`random.uniform(-0.25, 0.25)` passed in explicitly and real arithmetic
modelled over the rationals: the capped exponential delay is perturbed by
`sample * delay` and floored at zero. -/
def wait_with_backoff_delay (attempt : Nat) (jitterSample : ℚ) : ℚ :=
  let base_delay : ℚ := 1
  let max_delay : ℚ := 60
  let delay := min (base_delay * 2 ^ attempt) max_delay
  let delay := delay + jitterSample * delay
  max 0 delay

/-- One page of a paginated search response: its items (kept abstract as
strings) and the has_more flag. -/
structure SearchPage where
  results : List String
  has_more : Bool

/-- The body of X402Client.search_iter observed by a consumer that abandons
the iteration after taking at most `n` items: `fetch` maps an offset to the
page the underlying search call returns, `offset` and `limit` follow the
source bookkeeping, and `fuel` bounds how many pages the model may visit (a
backend that keeps answering has_more with empty pages loops in the source).
Returns the items yielded and the offsets of the underlying calls, in order.
When the consumer still wants items beyond the current page, the generator
resumes past its yields and fetches again only if has_more was set; when the
wanted items all sit inside the page, the generator stays suspended at a
yield and no further call happens. -/
def searchIterGo (fetch : Nat → SearchPage) (limit : Nat) :
    Nat → Nat → Nat → List String × List Nat
  | 0, _, _ => ([], [])
  | _ + 1, 0, _ => ([], [])
  | fuel + 1, n + 1, offset =>
    let page := fetch offset
    if n + 1 ≤ page.results.length then
      (page.results.take (n + 1), [offset])
    else if page.has_more then
      let rest := searchIterGo fetch limit fuel (n + 1 - page.results.length)
        (offset + limit)
      (page.results ++ rest.1, offset :: rest.2)
    else
      (page.results, [offset])

/-- X402Client.search_iter consumed for at most `n` items, starting at
offset 0 as the source does. -/
def search_iter_take (fetch : Nat → SearchPage) (limit n fuel : Nat) :
    List String × List Nat :=
  searchIterGo fetch limit fuel n 0

/-- The full run of the async generator to exhaustion: every page is fetched
until has_more is false (or fuel runs out), all items collected. -/
def collectGo (fetch : Nat → SearchPage) (limit : Nat) :
    Nat → Nat → List String × List Nat
  | 0, _ => ([], [])
  | fuel + 1, offset =>
    let page := fetch offset
    if page.has_more then
      let rest := collectGo fetch limit fuel (offset + limit)
      (page.results ++ rest.1, offset :: rest.2)
    else (page.results, [offset])

/-- SyncX402Client.search_iter: it drives the async generator to completion
first, collecting every item into a list, and only then hands the caller a
plain iterator over that list; a consumer taking `n` items therefore still
triggers every underlying call. -/
def sync_search_iter_take (fetch : Nat → SearchPage) (limit n fuel : Nat) :
    List String × List Nat :=
  let all := collectGo fetch limit fuel 0
  (all.1.take n, all.2)

/-- A query parameter value: string, integer, boolean or list of strings. -/
inductive QVal where
  | s (v : String)
  | i (v : Int)
  | b (v : Bool)
  | l (v : List String)

/-- A `if x: params[k] = x` guard on an optional string, the truthiness form
used for category, brand, condition and session_id. -/
def optParamStr (k : String) (o : Option String) : List (String × QVal) :=
  match o with
  | some v => if v == "" then [] else [(k, QVal.s v)]
  | none => []

/-- A `if x is not None: params[k] = x` guard on an optional integer, the
form used for price_min and price_max. -/
def optParamIntNN (k : String) (o : Option Int) : List (String × QVal) :=
  match o with
  | some v => [(k, QVal.i v)]
  | none => []

/-- A `if x: params[k] = x` guard on an optional list, the truthiness form
used for categories, merchant_domains and capabilities. -/
def optParamListT (k : String) (o : Option (List String)) : List (String × QVal) :=
  match o with
  | some v => if v.isEmpty then [] else [(k, QVal.l v)]
  | none => []

/-- A `if x is not None: params[k] = x` guard on an optional boolean, the
form used for has_catalog. -/
def optParamBoolNN (k : String) (o : Option Bool) : List (String × QVal) :=
  match o with
  | some v => [(k, QVal.b v)]
  | none => []

/-- The arguments of ProductClient.search. -/
structure ProductSearchArgs where
  query : String
  price_min : Option Int
  price_max : Option Int
  category : Option String
  categories : Option (List String)
  brand : Option String
  condition : Option String
  merchant_domains : Option (List String)
  limit : Int
  offset : Int
  session_id : Option String

/-- The query parameters ProductClient.search builds: q, limit and offset
always, each optional filter only under its source guard, in source order. -/
def productSearchParams (a : ProductSearchArgs) : List (String × QVal) :=
  [("q", QVal.s a.query), ("limit", QVal.i a.limit), ("offset", QVal.i a.offset)]
    ++ optParamIntNN "price_min" a.price_min
    ++ optParamIntNN "price_max" a.price_max
    ++ optParamStr "category" a.category
    ++ optParamListT "categories" a.categories
    ++ optParamStr "brand" a.brand
    ++ optParamStr "condition" a.condition
    ++ optParamListT "merchant_domains" a.merchant_domains
    ++ optParamStr "session_id" a.session_id

/-- The arguments of MerchantClient.search. -/
structure MerchantSearchArgs where
  capabilities : Option (List String)
  industry : Option String
  region : Option String
  has_catalog : Option Bool
  limit : Int
  offset : Int
  session_id : Option String

/-- The query parameters MerchantClient.search builds: limit and offset
always, each optional filter only under its source guard, in source order. -/
def merchantSearchParams (m : MerchantSearchArgs) : List (String × QVal) :=
  [("limit", QVal.i m.limit), ("offset", QVal.i m.offset)]
    ++ optParamListT "capabilities" m.capabilities
    ++ optParamStr "industry" m.industry
    ++ optParamStr "region" m.region
    ++ optParamBoolNN "has_catalog" m.has_catalog
    ++ optParamStr "session_id" m.session_id

/-- The api_key reassignment of AsyncRencomClient.__init__: the environment
variable RENCOM_API_KEY is consulted only when neither credential is
passed. -/
def resolveApiKey (api_key jwt_token : Option String)
    (env : String → Option String) : Option String :=
  if api_key = none ∧ jwt_token = none then env "RENCOM_API_KEY" else api_key

/-- The construction-failure message of AsyncRencomClient.__init__. -/
def missingCredentialMsg : String :=
  "Either api_key or jwt_token must be provided, or RENCOM_API_KEY environment variable must be set"

/-- AsyncRencomClient.__init__: construction fails when both credentials
remain None after the environment fallback, and otherwise stores them in an
HTTPClient whose admin_key argument is never passed, so that slot keeps its
None default. -/
def asyncRencomClientInit (api_key jwt_token : Option String)
    (max_retries : Nat) (auto_retry_rate_limits : Bool)
    (env : String → Option String) : Except String HTTPConfig :=
  if resolveApiKey api_key jwt_token env = none ∧ jwt_token = none then
    .error missingCredentialMsg
  else
    .ok ⟨resolveApiKey api_key jwt_token env, jwt_token, none,
      max_retries, auto_retry_rate_limits⟩

/-- RencomClient.__init__ constructs an AsyncRencomClient with the same
arguments, so credential resolution is identical. -/
def rencomClientInit (api_key jwt_token : Option String)
    (max_retries : Nat) (auto_retry_rate_limits : Bool)
    (env : String → Option String) : Except String HTTPConfig :=
  asyncRencomClientInit api_key jwt_token max_retries auto_retry_rate_limits env

/-- A 500 response with a JSON object body whose detail field is Error. -/
def serverErrResp : HttpResponse :=
  ⟨500, true, true, some "Error", none, "server error body", none, none, none, none⟩

/-- A decodable 200 response. -/
def okResp : HttpResponse :=
  ⟨200, true, true, none, none, "ok body", none, none, none, none⟩

/-- A transport that answers the first N attempts with the 500 response and
every later attempt with the success. -/
def fiveHundredThenOk (N : Nat) : Nat → TransportOutcome :=
  fun i => if i < N then .response serverErrResp else .response okResp

/-- A client configuration with an API key, the given retry ceiling, and 429
auto-retry off. -/
def mkCfg (m : Nat) : HTTPConfig := ⟨some "key", none, none, m, false⟩

lemma requestGo_attempts_le (cfg : HTTPConfig) (t : Nat → TransportOutcome) :
    ∀ fuel attempt, (requestGo cfg t attempt fuel).attempts ≤ fuel := by
  intro fuel
  induction fuel with
  | zero => intro attempt; simp [requestGo]
  | succ f ih =>
    intro attempt
    have hih := ih (attempt + 1)
    by_cases h : attempt < cfg.max_retries
    · cases hc : classifyAttempt (t attempt) with
      | success r => simp [requestGo, ErrKind.isServerError, hc]
      | decodeFail r => simp [requestGo, ErrKind.isServerError, hc]
      | caughtTimeout => simp [requestGo, ErrKind.isServerError, hc, h]; omega
      | caughtNetwork m => simp [requestGo, ErrKind.isServerError, hc, h]; omega
      | caughtHttp e =>
        cases e with
        | rateLimit m ra l rem rst =>
          by_cases ha : cfg.auto_retry_rate_limits = true
          · simp [requestGo, ErrKind.isServerError, hc, h, ha]; omega
          · simp [requestGo, ErrKind.isServerError, hc, h, ha]
        | validation m errs => simp [requestGo, ErrKind.isServerError, hc]
        | authentication m => simp [requestGo, ErrKind.isServerError, hc]
        | authorization m => simp [requestGo, ErrKind.isServerError, hc]
        | notFound m => simp [requestGo, ErrKind.isServerError, hc]
        | serviceUnavailable m =>
          simp [requestGo, ErrKind.isServerError, hc, h]; omega
        | server m => simp [requestGo, ErrKind.isServerError, hc, h]; omega
        | network m => simp [requestGo, ErrKind.isServerError, hc]
        | timeout m => simp [requestGo, ErrKind.isServerError, hc]
        | rencom m => simp [requestGo, ErrKind.isServerError, hc]
    · cases hc : classifyAttempt (t attempt) with
      | success r => simp [requestGo, ErrKind.isServerError, hc]
      | decodeFail r => simp [requestGo, ErrKind.isServerError, hc]
      | caughtTimeout => simp [requestGo, ErrKind.isServerError, hc, h]
      | caughtNetwork m => simp [requestGo, ErrKind.isServerError, hc, h]
      | caughtHttp e =>
        cases e with
        | rateLimit m ra l rem rst => simp [requestGo, ErrKind.isServerError, hc, h]
        | validation m errs => simp [requestGo, ErrKind.isServerError, hc]
        | authentication m => simp [requestGo, ErrKind.isServerError, hc]
        | authorization m => simp [requestGo, ErrKind.isServerError, hc]
        | notFound m => simp [requestGo, ErrKind.isServerError, hc]
        | serviceUnavailable m => simp [requestGo, ErrKind.isServerError, hc, h]
        | server m => simp [requestGo, ErrKind.isServerError, hc, h]
        | network m => simp [requestGo, ErrKind.isServerError, hc]
        | timeout m => simp [requestGo, ErrKind.isServerError, hc]
        | rencom m => simp [requestGo, ErrKind.isServerError, hc]

lemma go_5xx_ok (N : Nat) :
    ∀ fuel attempt, attempt + fuel = N + 1 → attempt ≤ N →
      (requestGo (mkCfg N) (fiveHundredThenOk N) attempt fuel).outcome
          = .ok okResp
        ∧ (requestGo (mkCfg N) (fiveHundredThenOk N) attempt fuel).attempts
          = fuel := by
  intro fuel
  induction fuel with
  | zero => intro attempt h1 h2; omega
  | succ f ih =>
    intro attempt h1 h2
    by_cases hlt : attempt < N
    · have hcl : classifyAttempt (fiveHundredThenOk N attempt)
          = .caughtHttp (.server "Error") := by
        simp only [fiveHundredThenOk, if_pos hlt]
        rfl
      have hrec := ih (attempt + 1) (by omega) (by omega)
      rw [requestGo, hcl]
      simp only [ErrKind.isServerError, if_pos (show attempt < (mkCfg N).max_retries from hlt)]
      exact ⟨hrec.1, by simp [hrec.2]⟩
    · have hat : attempt = N := by omega
      have hf : f = 0 := by omega
      have hcl : classifyAttempt (fiveHundredThenOk N attempt) = .success okResp := by
        subst hat
        simp only [fiveHundredThenOk, if_neg hlt]
        rfl
      rw [requestGo, hcl]
      simp [hf]

lemma go_5xx_fail (N : Nat) (hN : 1 ≤ N) :
    ∀ fuel attempt, attempt + fuel = N → attempt + 1 ≤ N →
      (requestGo (mkCfg (N - 1)) (fiveHundredThenOk N) attempt fuel).outcome
          = .raised (.server "Error")
        ∧ (requestGo (mkCfg (N - 1)) (fiveHundredThenOk N) attempt fuel).attempts
          = fuel := by
  intro fuel
  induction fuel with
  | zero => intro attempt h1 h2; omega
  | succ f ih =>
    intro attempt h1 h2
    have hcl : classifyAttempt (fiveHundredThenOk N attempt)
        = .caughtHttp (.server "Error") := by
      simp only [fiveHundredThenOk, if_pos (show attempt < N by omega)]
      rfl
    rw [requestGo, hcl]
    by_cases hlt : attempt < (mkCfg (N - 1)).max_retries
    · have hrec := ih (attempt + 1) (by omega)
        (by simp [mkCfg] at hlt; omega)
      simp only [ErrKind.isServerError, if_pos hlt]
      exact ⟨hrec.1, by simp [hrec.2]⟩
    · have hf : f = 0 := by simp [mkCfg] at hlt; omega
      simp only [ErrKind.isServerError, if_neg hlt]
      simp [hf]

/-- C1: for every retry ceiling the executor makes at most `max_retries + 1`
transport attempts per logical call, over any transport behavior; on a run
of N consecutive 5xx responses followed by a success, a ceiling of N returns
the decoded success after exactly N+1 attempts, while a ceiling of N-1
raises the Server error after exactly N attempts. -/
theorem retry_schedule_5xx (N : Nat) :
    (∀ cfg t, (request cfg t).attempts ≤ cfg.max_retries + 1)
    ∧ (request (mkCfg N) (fiveHundredThenOk N)).outcome = .ok okResp
    ∧ (request (mkCfg N) (fiveHundredThenOk N)).attempts = N + 1
    ∧ (1 ≤ N →
        (request (mkCfg (N - 1)) (fiveHundredThenOk N)).outcome
            = .raised (.server "Error")
        ∧ (request (mkCfg (N - 1)) (fiveHundredThenOk N)).attempts = N) := by
  refine ⟨fun cfg t => requestGo_attempts_le cfg t _ 0, ?_, ?_, ?_⟩
  · exact (go_5xx_ok N (N + 1) 0 (by omega) (by omega)).1
  · have h := (go_5xx_ok N (N + 1) 0 (by omega) (by omega)).2
    simpa [request, mkCfg] using h
  · intro hN
    have h := go_5xx_fail N hN N 0 (by omega) (by omega)
    constructor
    · have := h.1
      simpa [request, mkCfg, Nat.sub_add_cancel hN] using this
    · have := h.2
      simpa [request, mkCfg, Nat.sub_add_cancel hN] using this

/-- Witness for C1 at N = 2. -/
theorem retry_schedule_5xx_witness :
    (request (mkCfg 1) (fiveHundredThenOk 2)).outcome
        = .raised (.server "Error")
      ∧ (request (mkCfg 1) (fiveHundredThenOk 2)).attempts = 2 :=
  (retry_schedule_5xx 2).2.2.2 (by decide)

/-- C2: header construction is a pure function of the credentials, and its
authentication entries are exactly one header under the precedence admin
key, then session token, then API key, and none when no credential is set
(set meaning truthy, as the source conditionals test). -/
theorem auth_header_precedence (c : HTTPConfig) :
    authEntries (build_headers c none) =
      (if strTruthy c.admin_key then [("X-Admin-Key", c.admin_key.getD "")]
       else if strTruthy c.jwt_token then
         [("Authorization", "Bearer " ++ c.jwt_token.getD "")]
       else if strTruthy c.api_key then [("X-API-Key", c.api_key.getD "")]
       else []) := by
  by_cases ha : strTruthy c.admin_key <;>
    by_cases hj : strTruthy c.jwt_token <;>
      by_cases hk : strTruthy c.api_key <;>
        simp [build_headers, hset, authEntries, authHeaderKeys, ha, hj, hk]

lemma find_hset_eq (k v : String) (hs : Headers) :
    (hset hs k v).find? (fun p => p.1 == k) = some (k, v) := by
  rw [hset]
  by_cases hc : hs.any (fun p => p.1 == k) = true
  · rw [if_pos hc]
    induction hs with
    | nil => simp at hc
    | cons q t ih =>
      rw [List.map_cons]
      by_cases hq : (q.1 == k) = true
      · rw [if_pos hq]
        exact List.find?_cons_of_pos _ (by simp)
      · have hqf : (q.1 == k) = false := by simpa using hq
        rw [if_neg hq, List.find?_cons_of_neg _ (by simp [hqf])]
        apply ih
        rw [List.any_cons, hqf] at hc
        simpa using hc
  · rw [if_neg hc]
    rw [List.find?_append]
    have h1 : hs.find? (fun p => p.1 == k) = none := by
      rw [List.find?_eq_none]
      intro p hp hpk
      exact hc (List.any_eq_true.mpr ⟨p, hp, hpk⟩)
    rw [h1]
    simp [List.find?]

lemma find_hset_ne (k k' v : String) (hne : (k' == k) = false) (hs : Headers) :
    (hset hs k' v).find? (fun p => p.1 == k) = hs.find? (fun p => p.1 == k) := by
  rw [hset]
  by_cases hc : hs.any (fun p => p.1 == k') = true
  · rw [if_pos hc]
    clear hc
    induction hs with
    | nil => rfl
    | cons q t ih =>
      rw [List.map_cons]
      by_cases hq : (q.1 == k') = true
      · have hq1 : (q.1 == k) = false := by
          have h1 : q.1 = k' := by simpa using hq
          rw [h1]
          exact hne
        rw [if_pos hq, List.find?_cons_of_neg _ (by simp [hne]),
          List.find?_cons_of_neg _ (by simp [hq1])]
        exact ih
      · rw [if_neg hq]
        by_cases hqk : (q.1 == k) = true
        · rw [List.find?_cons_of_pos _ (by simpa using hqk),
            List.find?_cons_of_pos _ (by simpa using hqk)]
        · have hqkf : (q.1 == k) = false := by simpa using hqk
          rw [List.find?_cons_of_neg _ (by simp [hqkf]),
            List.find?_cons_of_neg _ (by simp [hqkf])]
          exact ih
  · rw [if_neg hc, List.find?_append]
    have h2 : List.find? (fun p => p.1 == k) [(k', v)] = none := by
      simp [List.find?, hne]
    rw [h2]
    simp

lemma hget_hset_self (hs : Headers) (k v : String) :
    hget (hset hs k v) k = some v := by
  rw [hget, find_hset_eq]
  rfl

lemma hget_hset_ne (hs : Headers) (k k' v : String) (hne : k ≠ k') :
    hget (hset hs k' v) k = hget hs k := by
  rw [hget, hget, find_hset_ne]
  rw [beq_eq_false_iff_ne]
  exact Ne.symm hne

lemma hget_hupdate_not_mem (extra : Headers) :
    ∀ hs k, (∀ p ∈ extra, p.1 ≠ k) →
      hget (hupdate hs extra) k = hget hs k := by
  induction extra with
  | nil => intro hs k _; rfl
  | cons q t ih =>
    intro hs k h
    have hstep : hupdate hs (q :: t) = hupdate (hset hs q.1 q.2) t := rfl
    rw [hstep, ih _ _ (fun p hp => h p (List.mem_cons_of_mem _ hp))]
    exact hget_hset_ne hs k q.1 q.2 (Ne.symm (h q (List.mem_cons_self q t)))

lemma hget_hupdate_mem (extra : Headers) :
    ∀ hs k v, (extra.map Prod.fst).Nodup → (k, v) ∈ extra →
      hget (hupdate hs extra) k = some v := by
  induction extra with
  | nil => intro hs k v _ hmem; exact absurd hmem (List.not_mem_nil _)
  | cons q t ih =>
    intro hs k v hnd hmem
    rw [List.map_cons] at hnd
    have h1 := (List.nodup_cons.mp hnd).1
    have h2 := (List.nodup_cons.mp hnd).2
    have hstep : hupdate hs (q :: t) = hupdate (hset hs q.1 q.2) t := rfl
    rcases List.mem_cons.mp hmem with heq | hmem'
    · have hk : q.1 = k := by rw [← heq]
      have hv : q.2 = v := by rw [← heq]
      have hnot : ∀ p ∈ t, p.1 ≠ k := by
        intro p hp hpk
        exact h1 (by rw [hk]; exact List.mem_map.mpr ⟨p, hp, hpk⟩)
      rw [hstep, hget_hupdate_not_mem t _ _ hnot, hk, hv]
      exact hget_hset_self hs k v
    · rw [hstep]
      exact ih _ k v h2 hmem'

/-- C10: when the caller passes an extra header whose key is one of the
authentication header names or Content-Type, the dict update applied after
auth construction makes the caller value win in the final headers. -/
theorem extra_headers_override (c : HTTPConfig) (extra : Headers) (k v : String)
    (hnd : (extra.map Prod.fst).Nodup)
    (hk : k ∈ authHeaderKeys ∨ k = "Content-Type")
    (hmem : (k, v) ∈ extra) :
    hget (build_headers c (some extra)) k = some v := by
  have hne : extra.isEmpty = false := by
    cases extra with
    | nil => simp at hmem
    | cons q t => rfl
  unfold build_headers
  simp only [hne, Bool.false_eq_true, if_false]
  exact hget_hupdate_mem extra _ k v hnd hmem

/-- Witness for C10: a caller-supplied Authorization header overrides the
Bearer header a jwt-token client would construct. -/
theorem extra_headers_override_witness :
    hget (build_headers ⟨none, some "tok", none, 3, false⟩
        (some [("Authorization", "custom")])) "Authorization" = some "custom" :=
  extra_headers_override ⟨none, some "tok", none, 3, false⟩
    [("Authorization", "custom")] "Authorization" "custom"
    (by simp) (by simp [authHeaderKeys]) (by simp)

/-- C3: for every failed response the raised error equals the spec table,
under the well-formedness fact that a response whose body JSON-decodes has
nonempty text; and a 503 raises a member of the ServerError class. -/
theorem error_mapping_matches_spec (r : HttpResponse) (hs : 400 ≤ r.status)
    (hw : r.jsonOk = true → r.text ≠ "") :
    handle_error_response r = specErrorFor r
      ∧ (r.status = 503 → (handle_error_response r).isServerError = true) := by
  have hmsg : (if r.jsonOk && r.jsonIsDict then r.detail.getD r.text
      else if r.text == "" then "HTTP " ++ toString r.status else r.text)
      = specMessage r := by
    cases hjo : r.jsonOk with
    | false => simp [specMessage, hjo]
    | true =>
      cases hjd : r.jsonIsDict with
      | false => simp [specMessage, hjo, hjd]
      | true =>
        cases hdet : r.detail with
        | some d => simp [specMessage, hjo, hjd, hdet]
        | none =>
          have htx : (r.text == "") = false := beq_eq_false_iff_ne.mpr (hw hjo)
          simp [specMessage, hjo, hjd, hdet, htx]
  have hmsg2 : (if r.jsonOk = true ∧ r.jsonIsDict = true then r.detail.getD r.text
      else if r.text = "" then "HTTP " ++ toString r.status else r.text)
      = specMessage r := by
    simpa using hmsg
  constructor
  · by_cases h400 : r.status = 400
    · simp only [handle_error_response, specErrorFor, h400, hmsg]
      norm_num
      constructor
      · simpa [h400] using hmsg
      · by_cases hpp : r.jsonOk = true ∧ r.jsonIsDict = true <;> simp [hpp]
    · by_cases h401 : r.status = 401
      · simp only [handle_error_response, specErrorFor, h401]
        norm_num
        simpa [h401] using hmsg
      · by_cases h403 : r.status = 403
        · simp only [handle_error_response, specErrorFor, h403]
          norm_num
          simpa [h403] using hmsg
        · by_cases h404 : r.status = 404
          · simp only [handle_error_response, specErrorFor, h404]
            norm_num
            simpa [h404] using hmsg
          · by_cases h429 : r.status = 429
            · simp only [handle_error_response, specErrorFor, h429]
              norm_num
              simpa [h429] using hmsg
            · by_cases h503 : r.status = 503
              · simp only [handle_error_response, specErrorFor, h503]
                norm_num
                simpa [h503] using hmsg
              · by_cases h5xx : 500 ≤ r.status
                · have hb400 : (r.status == 400) = false := by simp [h400]
                  have hb401 : (r.status == 401) = false := by simp [h401]
                  have hb403 : (r.status == 403) = false := by simp [h403]
                  have hb404 : (r.status == 404) = false := by simp [h404]
                  have hb429 : (r.status == 429) = false := by simp [h429]
                  have hb503 : (r.status == 503) = false := by simp [h503]
                  simp only [handle_error_response, specErrorFor, hb400, hb401,
                    hb403, hb404, hb429, hb503, h503, h400, h401, h403, h404,
                    h429, h5xx]
                  simp [h503, h5xx, hmsg, hmsg2]
                · have hb400 : (r.status == 400) = false := by simp [h400]
                  have hb401 : (r.status == 401) = false := by simp [h401]
                  have hb403 : (r.status == 403) = false := by simp [h403]
                  have hb404 : (r.status == 404) = false := by simp [h404]
                  have hb429 : (r.status == 429) = false := by simp [h429]
                  have hb503 : (r.status == 503) = false := by simp [h503]
                  simp only [handle_error_response, specErrorFor, hb400, hb401,
                    hb403, hb404, hb429, hb503]
                  simp [h503, h5xx, h400, h401, h403, h404, h429, hmsg, hmsg2]
  · intro h503
    simp [handle_error_response, h503, ErrKind.isServerError]

/-- Witness for C3 at the 500 response fixture. -/
theorem error_mapping_matches_spec_witness :
    handle_error_response serverErrResp = specErrorFor serverErrResp
      ∧ (serverErrResp.status = 503 →
          (handle_error_response serverErrResp).isServerError = true) :=
  error_mapping_matches_spec serverErrResp (by decide) (fun _ => by decide)

/-- A 429 response carrying the given parsed Retry-After header value. -/
def rl429 (ra : Option Int) : HttpResponse :=
  ⟨429, true, true, some "Rate limit exceeded", none, "rate limited body",
    ra, none, none, none⟩

/-- A transport answering attempt 0 with the 429 response and every later
attempt with the success. -/
def rlTransport (ra : Option Int) : Nat → TransportOutcome :=
  fun i => if i = 0 then .response (rl429 ra) else .response okResp

/-- A configuration with rate-limit auto-retry enabled and one retry. -/
def rlCfg : HTTPConfig := ⟨some "key", none, none, 1, true⟩

/-- C4 counterexample: on a 429 with auto-retry enabled and the Retry-After
header absent, the executor sleeps the defaulted retry_after of 60 seconds;
it does not fall back to the exponential backoff schedule as claimed. -/
theorem rate_limit_missing_retry_after_cex :
    (request rlCfg (rlTransport none)).waits = [Wait.sleep 60]
      ∧ (request rlCfg (rlTransport none)).waits.any Wait.isBackoff = false
      ∧ (request rlCfg (rlTransport none)).outcome = .ok okResp
      ∧ (request rlCfg (rlTransport none)).attempts = 2 :=
  ⟨rfl, rfl, rfl, rfl⟩

/-- C4 amended: with auto-retry enabled and attempts remaining, the wait
before the retry of a 429 is a plain sleep of the parsed Retry-After value,
which defaults to 60 when the header is absent; the backoff schedule is used
only when that value is zero (the only falsy integer). -/
theorem rate_limit_wait_selection (cfg : HTTPConfig) (ra : Option Int)
    (t : Nat → TransportOutcome)
    (hauto : cfg.auto_retry_rate_limits = true)
    (hmr : 0 < cfg.max_retries)
    (ht : t 0 = .response (rl429 ra)) :
    (request cfg t).waits.head? =
      some (if ra.getD 60 = 0 then Wait.backoff 0 else Wait.sleep (ra.getD 60)) := by
  have hcl : classifyAttempt (t 0)
      = .caughtHttp (.rateLimit "Rate limit exceeded" (some (ra.getD 60))
          none none none) := by
    rw [ht]
    rfl
  obtain ⟨m, hm⟩ : ∃ m, cfg.max_retries = m + 1 := ⟨cfg.max_retries - 1, by omega⟩
  have hzero : 0 < cfg.max_retries := hmr
  simp only [request, hm]
  rw [requestGo, hcl]
  simp only [ErrKind.isServerError, Bool.false_eq_true, if_false]
  rw [if_pos ⟨hauto, by omega⟩]
  by_cases hz : ra.getD 60 = 0
  · simp [optIntTruthy, hz]
  · simp [optIntTruthy, hz]

/-- Witness for the amended C4 with Retry-After of 5 seconds. -/
theorem rate_limit_wait_selection_witness :
    (request rlCfg (rlTransport (some 5))).waits.head? = some (Wait.sleep 5) := by
  have h := rate_limit_wait_selection rlCfg (some 5) (rlTransport (some 5))
    rfl (by decide) rfl
  simpa using h

/-- A success-status response whose body fails to decode as JSON. -/
def badJsonResp : HttpResponse :=
  ⟨200, false, false, none, none, "not json", none, none, none, none⟩

/-- A transport that always answers with the undecodable success. -/
def badJsonTransport : Nat → TransportOutcome := fun _ => .response badJsonResp

/-- C7 counterexample: the decode failure of a success-status body escapes
after one attempt with no wait, but it is not a member of the SDK error
taxonomy: no except clause catches it and no parse-error class exists, so
the raw JSON decode exception propagates. -/
theorem decode_failure_cex :
    (request (mkCfg 3) badJsonTransport).outcome = .decodeRaised badJsonResp
      ∧ (request (mkCfg 3) badJsonTransport).outcome.isTypedError = false
      ∧ (request (mkCfg 3) badJsonTransport).attempts = 1
      ∧ (request (mkCfg 3) badJsonTransport).waits = [] :=
  ⟨rfl, rfl, rfl, rfl⟩

/-- C7 amended: a success-status response whose body fails to decode ends the
call at once: one attempt, no wait, and the failure propagates as the raw
decode error, outside the typed SDK taxonomy. -/
theorem decode_failure_no_retry (r : HttpResponse) (cfg : HTTPConfig)
    (t : Nat → TransportOutcome) (hs : r.status < 400) (hj : r.jsonOk = false)
    (ht : t 0 = .response r) :
    request cfg t = ⟨.decodeRaised r, 1, []⟩
      ∧ (request cfg t).outcome.isTypedError = false := by
  have hcl : classifyAttempt (t 0) = .decodeFail r := by
    rw [ht]
    show (if 400 ≤ r.status then AttemptClass.caughtHttp (handle_error_response r)
        else if r.jsonOk = true then AttemptClass.success r
        else AttemptClass.decodeFail r) = _
    rw [if_neg (by omega), if_neg (by simp [hj])]
  have h1 : request cfg t = ⟨.decodeRaised r, 1, []⟩ := by
    show requestGo cfg t 0 (cfg.max_retries + 1) = _
    rw [requestGo, hcl]
  refine ⟨h1, ?_⟩
  rw [h1]
  rfl

/-- Witness for the amended C7 at the fixture response. -/
theorem decode_failure_no_retry_witness :
    request (mkCfg 3) badJsonTransport = ⟨.decodeRaised badJsonResp, 1, []⟩
      ∧ (request (mkCfg 3) badJsonTransport).outcome.isTypedError = false :=
  decode_failure_no_retry badJsonResp (mkCfg 3) badJsonTransport
    (by decide) rfl rfl

/-- A backend with two pages of one item each: has_more on the first page,
not on the second. -/
def twoPageFetch (a b : String) : Nat → SearchPage :=
  fun off => if off = 0 then ⟨[a], true⟩ else ⟨[b], false⟩

/-- C5 counterexample: the synchronous facade iterator has already issued
both underlying calls even when its consumer abandons after the first item,
because it collects every page before returning. -/
theorem sync_iter_eager_cex :
    (sync_search_iter_take (twoPageFetch "a" "b") 5 1 10).1 = ["a"]
      ∧ (sync_search_iter_take (twoPageFetch "a" "b") 5 1 10).2 = [0, 5]
      ∧ ¬(sync_search_iter_take (twoPageFetch "a" "b") 5 1 10).2.length = 1 :=
  ⟨rfl, rfl, by decide⟩

/-- C5 amended: over the two-page backend the async iterator yields the two
items in order with exactly two calls at offsets 0 and limit, and abandoning
after the first item leaves exactly one call; the synchronous facade yields
the same items but always issues both calls, even when its consumer stops
after the first item. -/
theorem pagination_two_page_behavior (a b : String) (limit fuel : Nat)
    (hl : 0 < limit) (hf : 2 ≤ fuel) :
    search_iter_take (twoPageFetch a b) limit 3 fuel = ([a, b], [0, limit])
      ∧ search_iter_take (twoPageFetch a b) limit 2 fuel = ([a, b], [0, limit])
      ∧ search_iter_take (twoPageFetch a b) limit 1 fuel = ([a], [0])
      ∧ sync_search_iter_take (twoPageFetch a b) limit 3 fuel
          = ([a, b], [0, limit])
      ∧ sync_search_iter_take (twoPageFetch a b) limit 1 fuel
          = ([a], [0, limit]) := by
  obtain ⟨f, rfl⟩ : ∃ f, fuel = f + 2 := ⟨fuel - 2, by omega⟩
  have hlz : limit ≠ 0 := by omega
  refine ⟨?_, ?_, ?_, ?_, ?_⟩ <;>
    simp [search_iter_take, sync_search_iter_take, searchIterGo, collectGo,
      twoPageFetch, hlz]

/-- Witness for the amended C5 at concrete items and limit 5. -/
theorem pagination_two_page_behavior_witness :
    search_iter_take (twoPageFetch "x" "y") 5 1 2 = (["x"], [0])
      ∧ sync_search_iter_take (twoPageFetch "x" "y") 5 1 2 = (["x"], [0, 5]) := by
  have h := pagination_two_page_behavior "x" "y" 5 2 (by decide) (by decide)
  exact ⟨h.2.2.1, h.2.2.2.2⟩

lemma map_fst_optParamStr (k : String) (o : Option String) :
    (optParamStr k o).map Prod.fst = if strTruthy o then [k] else [] := by
  cases o with
  | none => rfl
  | some v =>
    by_cases hv : v = ""
    · simp [optParamStr, strTruthy, hv]
    · simp [optParamStr, strTruthy, hv]

lemma map_fst_optParamIntNN (k : String) (o : Option Int) :
    (optParamIntNN k o).map Prod.fst = if o.isSome then [k] else [] := by
  cases o <;> rfl

lemma map_fst_optParamListT (k : String) (o : Option (List String)) :
    (optParamListT k o).map Prod.fst = if listTruthy o then [k] else [] := by
  cases o with
  | none => rfl
  | some v =>
    by_cases hv : v = []
    · simp [optParamListT, listTruthy, hv]
    · simp [optParamListT, listTruthy, hv, List.isEmpty_iff]

lemma map_fst_optParamBoolNN (k : String) (o : Option Bool) :
    (optParamBoolNN k o).map Prod.fst = if o.isSome then [k] else [] := by
  cases o <;> rfl

/-- C6: the outgoing query keys of the two resource-client searches are
exactly the always-present keys plus the keys of supplied optional filters
under their source guards; an optional filter left unset never appears. -/
theorem query_params_only_supplied (a : ProductSearchArgs) (m : MerchantSearchArgs) :
    (productSearchParams a).map Prod.fst =
        ["q", "limit", "offset"]
          ++ (if a.price_min.isSome then ["price_min"] else [])
          ++ (if a.price_max.isSome then ["price_max"] else [])
          ++ (if strTruthy a.category then ["category"] else [])
          ++ (if listTruthy a.categories then ["categories"] else [])
          ++ (if strTruthy a.brand then ["brand"] else [])
          ++ (if strTruthy a.condition then ["condition"] else [])
          ++ (if listTruthy a.merchant_domains then ["merchant_domains"] else [])
          ++ (if strTruthy a.session_id then ["session_id"] else [])
      ∧ (merchantSearchParams m).map Prod.fst =
        ["limit", "offset"]
          ++ (if listTruthy m.capabilities then ["capabilities"] else [])
          ++ (if strTruthy m.industry then ["industry"] else [])
          ++ (if strTruthy m.region then ["region"] else [])
          ++ (if m.has_catalog.isSome then ["has_catalog"] else [])
          ++ (if strTruthy m.session_id then ["session_id"] else []) := by
  constructor <;>
    simp [productSearchParams, merchantSearchParams, map_fst_optParamStr,
      map_fst_optParamIntNN, map_fst_optParamListT, map_fst_optParamBoolNN]

/-- C8: the jittered backoff delay for attempt k lies within plus or minus a
quarter of the capped exponential delay, for every jitter sample in the
uniform range. -/
theorem backoff_delay_bounds (k : Nat) (j : ℚ) (h1 : -(1/4) ≤ j) (h2 : j ≤ 1/4) :
    (3/4) * min ((2 : ℚ) ^ k) 60 ≤ wait_with_backoff_delay k j
      ∧ wait_with_backoff_delay k j ≤ (5/4) * min ((2 : ℚ) ^ k) 60 := by
  have hd : (0 : ℚ) ≤ min ((2 : ℚ) ^ k) 60 := le_min (by positivity) (by norm_num)
  have he : wait_with_backoff_delay k j
      = max 0 (min ((2 : ℚ) ^ k) 60 + j * min ((2 : ℚ) ^ k) 60) := by
    simp [wait_with_backoff_delay]
  have hmax : max 0 (min ((2 : ℚ) ^ k) 60 + j * min ((2 : ℚ) ^ k) 60)
      = min ((2 : ℚ) ^ k) 60 + j * min ((2 : ℚ) ^ k) 60 :=
    max_eq_right (by nlinarith)
  rw [he, hmax]
  constructor <;> nlinarith

/-- Witness for C8 at attempt 0 with zero jitter. -/
theorem backoff_delay_bounds_witness :
    (3/4) * min ((2 : ℚ) ^ 0) 60 ≤ wait_with_backoff_delay 0 0
      ∧ wait_with_backoff_delay 0 0 ≤ (5/4) * min ((2 : ℚ) ^ 0) 60 :=
  backoff_delay_bounds 0 0 (by norm_num) (by norm_num)

/-- An empty process environment. -/
def emptyEnv : String → Option String := fun _ => none

lemma strTruthy_none : strTruthy (none : Option String) = false := rfl

/-- C9 counterexample: an empty-string api_key passes the None-based
construction check of the public constructor, yet header construction adds
no authentication header at all, because its truthiness test treats the
empty string as unset. -/
theorem empty_api_key_no_auth_header_cex :
    asyncRencomClientInit (some "") none 3 false emptyEnv
        = .ok ⟨some "", none, none, 3, false⟩
      ∧ authEntries (build_headers ⟨some "", none, none, 3, false⟩ none) = [] := by
  constructor
  · rfl
  · rfl

/-- C9 amended: every successfully constructed public client has a None
admin slot, making the X-Admin-Key branch unreachable (the synchronous
constructor delegates to the same resolution), and a request carries a
Bearer or X-API-Key header whenever the stored credential is truthy; an
empty-string credential yields no auth header. -/
theorem public_client_no_admin_key (ak jt : Option String) (mr : Nat) (ar : Bool)
    (env : String → Option String) (cfg : HTTPConfig)
    (h : asyncRencomClientInit ak jt mr ar env = .ok cfg) :
    cfg.admin_key = none
      ∧ rencomClientInit ak jt mr ar env = asyncRencomClientInit ak jt mr ar env
      ∧ hget (build_headers cfg none) "X-Admin-Key" = none
      ∧ ((strTruthy cfg.api_key ∨ strTruthy cfg.jwt_token) →
          hget (build_headers cfg none) "Authorization"
              = some ("Bearer " ++ cfg.jwt_token.getD "")
            ∨ hget (build_headers cfg none) "X-API-Key"
              = some (cfg.api_key.getD "")) := by
  unfold asyncRencomClientInit at h
  split at h
  · exact absurd h (by simp)
  · have hcfg : cfg = ⟨resolveApiKey ak jt env, jt, none, mr, ar⟩ := by
      injection h with h'
      exact h'.symm
    subst hcfg
    refine ⟨rfl, rfl, ?_, ?_⟩
    · by_cases hj : strTruthy jt = true
      · simp [build_headers, strTruthy_none, hj, hset, hget, List.find?]
      · by_cases hk : strTruthy (resolveApiKey ak jt env) = true
        · simp [build_headers, strTruthy_none, hj, hk, hset, hget, List.find?]
        · simp [build_headers, strTruthy_none, hj, hk, hset, hget, List.find?]
    · intro hor
      by_cases hj : strTruthy jt = true
      · left
        simp [build_headers, strTruthy_none, hj, hset, hget, List.find?]
      · by_cases hk : strTruthy (resolveApiKey ak jt env) = true
        · right
          simp [build_headers, strTruthy_none, hj, hk, hset, hget, List.find?]
        · rcases hor with hk2 | hj2
          · exact absurd hk2 hk
          · exact absurd hj2 hj

/-- Witness for the amended C9 at a concrete api_key client. -/
theorem public_client_no_admin_key_witness :
    (⟨some "key", none, none, 3, false⟩ : HTTPConfig).admin_key = none
      ∧ rencomClientInit (some "key") none 3 false emptyEnv
          = asyncRencomClientInit (some "key") none 3 false emptyEnv
      ∧ hget (build_headers ⟨some "key", none, none, 3, false⟩ none)
          "X-Admin-Key" = none
      ∧ ((strTruthy (⟨some "key", none, none, 3, false⟩ : HTTPConfig).api_key
            ∨ strTruthy (⟨some "key", none, none, 3, false⟩ : HTTPConfig).jwt_token) →
          hget (build_headers ⟨some "key", none, none, 3, false⟩ none)
              "Authorization"
              = some ("Bearer "
                  ++ (⟨some "key", none, none, 3, false⟩ : HTTPConfig).jwt_token.getD "")
            ∨ hget (build_headers ⟨some "key", none, none, 3, false⟩ none)
              "X-API-Key"
              = some ((⟨some "key", none, none, 3, false⟩ : HTTPConfig).api_key.getD "")) :=
  public_client_no_admin_key (some "key") none 3 false emptyEnv
    ⟨some "key", none, none, 3, false⟩ rfl

end Rencom
